import Mathlib

/-!
Shallow embedding of the 3D cargo-stowage engine of the space-hatkhton
repository: the occupancy grid, item placement, the visibility / blocking /
accessibility model tied to a container's single open face, the retrieval
planner, the fragmentation analyser, item usage and waste transitions, and
the placement ranker's priority multiplier.

Coordinates and dimensions are non-negative integers (unit cells); scores are
rationals.  The occupancy grid is a total map from cells to `Option String`
(the id of the item holding the cell, or empty).  The `SpatialGrid` base class
file (`spatial-grid-implementation`) is not among the sources; its few
operations used here (`isSpaceFree`, `occupySpace`, `releaseSpace`,
`isPositionOccupied`, `isWithinBounds`) are modelled from the specification's
occupancy-grid contract and are marked as such.
-/

namespace Cargo

/-- Integer cell coordinates `(x, y, z)`; axes are width, depth, height. -/
structure Position where
  x : Nat
  y : Nat
  z : Nat
deriving DecidableEq, Repr

/-- A positive integer triple `(width, depth, height)`. -/
structure Dimensions where
  width : Nat
  depth : Nat
  height : Nat
deriving DecidableEq, Repr

/-- The occupancy grid: each cell is empty or holds one item id. -/
def Grid : Type := Position → Option String

/-- The six container faces; exactly one is the open face. -/
inductive Face where
  | front
  | back
  | left
  | right
  | top
  | bottom
deriving DecidableEq, Repr

/-- The cell box `[x, x+w) × [y, y+d) × [z, z+h)` as a Bool predicate. -/
def inBox (pos : Position) (d : Dimensions) (c : Position) : Bool :=
  decide (pos.x ≤ c.x ∧ c.x < pos.x + d.width ∧
          pos.y ≤ c.y ∧ c.y < pos.y + d.depth ∧
          pos.z ≤ c.z ∧ c.z < pos.z + d.height)

/-- Modelled from the spec: a coordinate is within the container bounds
(the `SpatialGrid` base class that owns this check is not among the sources). -/
def isWithinBounds (dims : Dimensions) (c : Position) : Bool :=
  decide (c.x < dims.width ∧ c.y < dims.depth ∧ c.z < dims.height)

/-- The list `[start, start+1, ..., start+len-1]`, mirroring the source's
inclusive `for (i = start; i <= end; i++)` loops with `len = end + 1 - start`
(an "end" of `start - 1`, such as the `-1` boundary at the open face,
gives the empty list, exactly as the JS loop performs no iteration). -/
def rangeFromLen (start len : Nat) : List Nat :=
  (List.range len).map (fun i => start + i)

/-- Cells of the rectangular region spanned by the three coordinate lists,
iterated x-outermost then y then z, as in the source's nested loops. -/
def cellProd (xr yr zr : List Nat) : List Position :=
  xr.flatMap (fun x => yr.flatMap (fun y => zr.map (fun z => ⟨x, y, z⟩)))

/-- The cells of an item's box, in the source's `dx`/`dy`/`dz` loop order. -/
def boxCells (pos : Position) (d : Dimensions) : List Position :=
  cellProd (rangeFromLen pos.x d.width) (rangeFromLen pos.y d.depth)
    (rangeFromLen pos.z d.height)

/-- Modelled from the spec: `isFree(pos, dims)` of the occupancy grid — true
iff every cell of the box lies inside the container and is empty (the
`SpatialGrid` base class implementing it is not among the sources). -/
def isSpaceFree (dims : Dimensions) (g : Grid) (pos : Position)
    (d : Dimensions) : Bool :=
  (boxCells pos d).all (fun c => isWithinBounds dims c && (g c).isNone)

/-- Modelled from the spec: `occupy(pos, dims, id)` fills the box with `id`. -/
def occupySpace (g : Grid) (pos : Position) (d : Dimensions)
    (id : String) : Grid :=
  fun c => if inBox pos d c then some id else g c

/-- Modelled from the spec: `release(id)` clears every cell holding `id`. -/
def releaseSpace (g : Grid) (id : String) : Grid :=
  fun c => if g c = some id then none else g c

/-- Modelled from the spec: a cell is occupied iff it holds some item id. -/
def isPositionOccupied (g : Grid) (c : Position) : Bool :=
  (g c).isSome

theorem mem_rangeFromLen {start len i : Nat} :
    i ∈ rangeFromLen start len ↔ start ≤ i ∧ i < start + len := by
  simp only [rangeFromLen, List.mem_map, List.mem_range]
  constructor
  · rintro ⟨j, hj, rfl⟩
    omega
  · rintro ⟨h1, h2⟩
    exact ⟨i - start, by omega, by omega⟩

theorem mem_cellProd {xr yr zr : List Nat} {c : Position} :
    c ∈ cellProd xr yr zr ↔ c.x ∈ xr ∧ c.y ∈ yr ∧ c.z ∈ zr := by
  simp only [cellProd, List.mem_flatMap, List.mem_map]
  constructor
  · rintro ⟨x, hx, y, hy, z, hz, rfl⟩
    exact ⟨hx, hy, hz⟩
  · rintro ⟨hx, hy, hz⟩
    exact ⟨c.x, hx, c.y, hy, c.z, ⟨hz, rfl⟩⟩

theorem mem_boxCells {pos : Position} {d : Dimensions} {c : Position} :
    c ∈ boxCells pos d ↔ inBox pos d c = true := by
  simp only [boxCells, mem_cellProd, mem_rangeFromLen, inBox,
    decide_eq_true_eq]
  omega

/-- An orientation assigns each original dimension to a container axis
(`0` = x, `1` = y, `2` = z); valid instances are permutations of `(0,1,2)`. -/
structure Orientation where
  widthAxis : Nat
  depthAxis : Nat
  heightAxis : Nat
deriving DecidableEq, Repr

/-- `Orientation.getEffectiveDimensions`: remap the original dimensions by
indexing `[width, depth, height]` with each axis, as in the source. -/
def Orientation.getEffectiveDimensions (o : Orientation)
    (original : Dimensions) : Dimensions :=
  let dims := [original.width, original.depth, original.height]
  ⟨dims.getD o.widthAxis 0, dims.getD o.depthAxis 0, dims.getD o.heightAxis 0⟩

/-- `Orientation.getAllOrientations`: the six permutations, in source order. -/
def Orientation.getAllOrientations : List Orientation :=
  [⟨0, 1, 2⟩, ⟨0, 2, 1⟩, ⟨1, 0, 2⟩, ⟨1, 2, 0⟩, ⟨2, 0, 1⟩, ⟨2, 1, 0⟩]

/-- The input attributes of an item that the grid layer consumes. -/
structure ItemData where
  id : String
  dimensions : Dimensions
deriving DecidableEq, Repr

/-- An entry of `itemsData`: the stored item together with its committed
position and effective (already reoriented) dimensions. -/
structure PlacedItem where
  id : String
  position : Position
  effectiveDimensions : Dimensions
deriving DecidableEq, Repr

/-- The state of an `EnhancedSpatialGrid`: container dimensions, the open
face, the occupancy grid, and the catalogue of placed items (a JS `Map`,
modelled as an insertion-ordered association list). -/
structure GridState where
  dims : Dimensions
  openFace : Face
  grid : Grid
  itemsData : List PlacedItem

/-- `Map.get`: the entry with the given id, if any. -/
def lookupItem (s : GridState) (itemId : String) : Option PlacedItem :=
  s.itemsData.find? (fun p => p.id == itemId)

/-- `Map.set`: replace the entry with this id, or append a new one. -/
def setItem (l : List PlacedItem) (r : PlacedItem) : List PlacedItem :=
  if l.any (fun p => p.id == r.id) then
    l.map (fun p => if p.id == r.id then r else p)
  else l ++ [r]

/-- `EnhancedSpatialGrid.placeItem`: compute the effective dimensions for the
requested orientation, check the space, occupy it and record the item; the
Bool is the source's return value, `false` leaving the state unchanged. -/
def placeItem (s : GridState) (itemData : ItemData) (position : Position)
    (orientation : Orientation) : Bool × GridState :=
  let eff := orientation.getEffectiveDimensions itemData.dimensions
  if isSpaceFree s.dims s.grid position eff then
    (true, { s with
      grid := occupySpace s.grid position eff itemData.id,
      itemsData := setItem s.itemsData ⟨itemData.id, position, eff⟩ })
  else (false, s)

/-- `EnhancedSpatialGrid.isItemVisible` on a catalogue entry: the item touches
the open face (for `back`/`right`/`top` the source compares the far
coordinate of the box with the last in-bounds coordinate of that axis). -/
def isItemVisibleOf (s : GridState) (it : PlacedItem) : Bool :=
  match s.openFace with
  | .front => it.position.y == 0
  | .back =>
      it.position.y + it.effectiveDimensions.depth - 1 == s.dims.depth - 1
  | .left => it.position.x == 0
  | .right =>
      it.position.x + it.effectiveDimensions.width - 1 == s.dims.width - 1
  | .top =>
      it.position.z + it.effectiveDimensions.height - 1 == s.dims.height - 1
  | .bottom => it.position.z == 0

/-- The cells scanned by `checkCellsInPath` in `findBlockingItems`: the
item's footprint extruded from its near face to the open face, with the six
start/end bounds of the source's `switch` (a negative "end" gives no cells). -/
def corridorCells (dims : Dimensions) (face : Face) (pos : Position)
    (eff : Dimensions) : List Position :=
  let xr : List Nat := match face with
    | .left => List.range pos.x
    | .right => rangeFromLen (pos.x + eff.width) (dims.width - (pos.x + eff.width))
    | _ => rangeFromLen pos.x eff.width
  let yr : List Nat := match face with
    | .front => List.range pos.y
    | .back => rangeFromLen (pos.y + eff.depth) (dims.depth - (pos.y + eff.depth))
    | _ => rangeFromLen pos.y eff.depth
  let zr : List Nat := match face with
    | .top => rangeFromLen (pos.z + eff.height) (dims.height - (pos.z + eff.height))
    | .bottom => List.range pos.z
    | _ => rangeFromLen pos.z eff.height
  cellProd xr yr zr

/-- One step of `findBlockingItems`'s scan: record the id occupying the cell
when it differs from the target's and has not been recorded yet. -/
def addBlocker (g : Grid) (itemId : String) (acc : List String)
    (c : Position) : List String :=
  match g c with
  | some id2 => if id2 ≠ itemId ∧ id2 ∉ acc then acc ++ [id2] else acc
  | none => acc

/-- The body of `findBlockingItems`: walk the corridor cells collecting every
distinct id other than the target's (the JS `Set`, in insertion order). -/
def collectBlockers (g : Grid) (itemId : String)
    (cells : List Position) : List String :=
  cells.foldl (addBlocker g itemId) []

/-- `EnhancedSpatialGrid.findBlockingItems` on a catalogue entry. -/
def findBlockingItemsOf (s : GridState) (it : PlacedItem) : List String :=
  collectBlockers s.grid it.id
    (corridorCells s.dims s.openFace it.position it.effectiveDimensions)

/-- `EnhancedSpatialGrid.findBlockingItems` by id (the source throws when the
id is unknown). -/
def findBlockingItems (s : GridState) (itemId : String) :
    Except String (List String) :=
  match lookupItem s itemId with
  | none => .error ("Item with ID " ++ itemId ++ " not found")
  | some it => .ok (findBlockingItemsOf s it)

/-- The column of cells strictly between a cell and the open face along the
extraction axis — the cells inspected by `isCellVisible`'s loop. -/
def colCells (face : Face) (dims : Dimensions) (c : Position) :
    List Position :=
  match face with
  | .front => (List.range c.y).map (fun cy => ⟨c.x, cy, c.z⟩)
  | .back => (rangeFromLen (c.y + 1) (dims.depth - (c.y + 1))).map
      (fun cy => ⟨c.x, cy, c.z⟩)
  | .left => (List.range c.x).map (fun cx => ⟨cx, c.y, c.z⟩)
  | .right => (rangeFromLen (c.x + 1) (dims.width - (c.x + 1))).map
      (fun cx => ⟨cx, c.y, c.z⟩)
  | .top => (rangeFromLen (c.z + 1) (dims.height - (c.z + 1))).map
      (fun cz => ⟨c.x, c.y, cz⟩)
  | .bottom => (List.range c.z).map (fun cz => ⟨c.x, c.y, cz⟩)

/-- `isCellVisible`: every cell on the way to the open face is empty or owned
by the item itself. -/
def cellVisible (s : GridState) (itemId : String) (c : Position) : Bool :=
  (colCells s.openFace s.dims c).all (fun p =>
    !(isPositionOccupied s.grid p && !(s.grid p == some itemId)))

/-- `EnhancedSpatialGrid.calculateVisibilityScore` on a catalogue entry:
`100 · visibleCells / totalCells` over the item's box. -/
def calculateVisibilityScoreOf (s : GridState) (it : PlacedItem) : ℚ :=
  let cells := boxCells it.position it.effectiveDimensions
  let totalCells := cells.length
  let visibleCells := cells.countP (fun c => cellVisible s it.id c)
  ((visibleCells : ℚ) / (totalCells : ℚ)) * 100

/-- The distance from the item's near face to the open face, as the source
computes it (real subtraction; negative only for out-of-bounds boxes). -/
def distanceFromFace (s : GridState) (it : PlacedItem) : ℚ :=
  match s.openFace with
  | .front => (it.position.y : ℚ)
  | .back => (s.dims.depth : ℚ) -
      ((it.position.y : ℚ) + (it.effectiveDimensions.depth : ℚ))
  | .left => (it.position.x : ℚ)
  | .right => (s.dims.width : ℚ) -
      ((it.position.x : ℚ) + (it.effectiveDimensions.width : ℚ))
  | .top => (s.dims.height : ℚ) -
      ((it.position.z : ℚ) + (it.effectiveDimensions.height : ℚ))
  | .bottom => (it.position.z : ℚ)

/-- The container extent along the extraction axis (`maxDistance`). -/
def maxDistanceOf (s : GridState) : ℚ :=
  match s.openFace with
  | .front | .back => (s.dims.depth : ℚ)
  | .left | .right => (s.dims.width : ℚ)
  | .top | .bottom => (s.dims.height : ℚ)

/-- `EnhancedSpatialGrid.calculateAccessibilityScore` on a catalogue entry:
visibility (0–40) + blocking (0–40, −10 per blocker, clamped) + distance
(0–20, linear in the normalized distance, clamped). -/
def calculateAccessibilityScoreOf (s : GridState) (it : PlacedItem) : ℚ :=
  let visibilityScore := calculateVisibilityScoreOf s it
  let visibilityComponent := (visibilityScore / 100) * 40
  let blockingItems := findBlockingItemsOf s it
  let blockingComponent : ℚ := max 0 (40 - (blockingItems.length : ℚ) * 10)
  let distance := distanceFromFace s it
  let maxDistance := maxDistanceOf s
  let distanceComponent : ℚ := max 0 (20 - (distance / maxDistance) * 20)
  visibilityComponent + blockingComponent + distanceComponent

/-- `calculateAccessibilityScore` by id (the source throws on unknown ids). -/
def calculateAccessibilityScore (s : GridState) (itemId : String) :
    Except String ℚ :=
  match lookupItem s itemId with
  | none => .error ("Item with ID " ++ itemId ++ " not found")
  | some it => .ok (calculateAccessibilityScoreOf s it)

/-- A retrieval plan: the target, the items to move first, and the
human-readable steps. -/
structure RetrievalPlan where
  targetItem : String
  itemsToMove : List String
  steps : List String
deriving DecidableEq, Repr

/-- `EnhancedSpatialGrid.generateRetrievalPlan` on a catalogue entry: a
single direct-retrieve step when the item is visible and unblocked, otherwise
one move per blocker (in enumeration order) followed by the retrieve step. -/
def generateRetrievalPlanOf (s : GridState) (it : PlacedItem) :
    RetrievalPlan :=
  if isItemVisibleOf s it && (findBlockingItemsOf s it).length == 0 then
    { targetItem := it.id, itemsToMove := [],
      steps := ["Retrieve item " ++ it.id ++ " directly"] }
  else
    let blockingItems := findBlockingItemsOf s it
    { targetItem := it.id,
      itemsToMove := blockingItems,
      steps := blockingItems.map
          (fun b => "Move item " ++ b ++ " to access " ++ it.id) ++
        ["Retrieve item " ++ it.id] }

/-- `generateRetrievalPlan` by id (the source throws on unknown targets). -/
def generateRetrievalPlan (s : GridState) (targetItemId : String) :
    Except String RetrievalPlan :=
  match lookupItem s targetItemId with
  | none => .error ("Target item with ID " ++ targetItemId ++ " not found")
  | some it => .ok (generateRetrievalPlanOf s it)

/-- `Container.isItemAccessible`: visible and with no blocking items. -/
def isItemAccessibleOf (s : GridState) (it : PlacedItem) : Bool :=
  isItemVisibleOf s it && (findBlockingItemsOf s it).length == 0

/-- `Container.removeItem`, restricted to the grid layer it touches: fail on
an unknown id, fail (leaving the state unchanged) when the item is not
directly accessible, otherwise release the item's cells.  The source updates
only volume/priority/expiry metrics besides this; it deletes the catalogue
entry of neither. -/
def removeItem (s : GridState) (itemId : String) : Bool × GridState :=
  match lookupItem s itemId with
  | none => (false, s)
  | some it =>
    if isItemAccessibleOf s it then
      (true, { s with grid := releaseSpace s.grid itemId })
    else (false, s)

/-- The `Item` model class (models/Item.ts): identity, box dimensions, mass,
numeric priority, optional expiry date (a calendar-day ordinal), optional
usage budget, plus the mutable usage counter and waste flag. -/
structure Item where
  itemId : String
  name : String
  width : Nat
  depth : Nat
  height : Nat
  mass : ℚ
  priority : Nat
  expiryDate : Option Int
  usageLimit : Option Nat
  preferredZone : String
  usageCount : Nat := 0
  isWaste : Bool := false
deriving DecidableEq, Repr

/-- `Item.hasExpired`: the current date has reached the expiry date. -/
def Item.hasExpired (it : Item) (currentDate : Int) : Bool :=
  match it.expiryDate with
  | none => false
  | some d => d ≤ currentDate

/-- `Item.use`: throws once the item is waste; otherwise increments the
usage counter and, when the budget is reached, transitions `isWaste` and
reports `true`. -/
def Item.use (it : Item) : Except String (Bool × Item) :=
  if it.isWaste then
    .error "Cannot use an item that is already waste"
  else
    let used := { it with usageCount := it.usageCount + 1 }
    match it.usageLimit with
    | some lim =>
      if lim ≤ used.usageCount then .ok (true, { used with isWaste := true })
      else .ok (false, used)
    | none => .ok (false, used)

/-- `Item.checkIfWaste`: reports whether the item counts as waste — and, as
a side effect in the source, marks it as waste when it is expired or its
usage budget is reached; the returned item is the post-call object. -/
def Item.checkIfWaste (it : Item) (currentDate : Int) : Bool × Item :=
  if it.isWaste then (true, it)
  else if it.hasExpired currentDate then (true, { it with isWaste := true })
  else
    match it.usageLimit with
    | some lim =>
      if lim ≤ it.usageCount then (true, { it with isWaste := true })
      else (false, it)
    | none => (false, it)

/-- An item priority as the repository mixes them: an ordinal tier string
("high" / "medium" / "low") or an integer 1–100. -/
inductive PriorityValue where
  | tier : String → PriorityValue
  | num : Nat → PriorityValue
deriving DecidableEq, Repr

/-- The priority multiplier of `Container.recommendPlacement`: `1.5` when the
priority strictly equals the string "high", `0.8` when it strictly equals
"low", otherwise `1.0`; plus `0.5` when the item expires within 30 days. -/
def recommendPriorityMultiplier (priority : PriorityValue)
    (daysUntilExpiry : Option ℚ) : ℚ :=
  let base : ℚ :=
    match priority with
    | .tier s => if s = "high" then 1.5 else if s = "low" then 0.8 else 1
    | .num _ => 1
  match daysUntilExpiry with
  | some days => if days < 30 then base + 0.5 else base
  | none => base

/-- An empty box found by the largest-empty-space search. -/
structure EmptySpace where
  position : Position
  dimensions : Dimensions
deriving DecidableEq, Repr

/-- The container state seen by the fragmentation analyser: the grid plus the
`_tempState` snapshot slot used by `temporarilyOccupySpace`. -/
structure FragView where
  dims : Dimensions
  grid : Grid
  tempState : Option Grid

/-- `Container.temporarilyOccupySpace`: snapshot the grid on first use, then
paint the box's in-bounds cells with the special `TEMP_OCCUPIED` marker. -/
def temporarilyOccupySpace (v : FragView) (position : Position)
    (dimensions : Dimensions) : FragView :=
  let saved : Grid :=
    match v.tempState with
    | none => v.grid
    | some g => g
  { v with
    tempState := some saved,
    grid := fun c =>
      if inBox position dimensions c && isWithinBounds v.dims c then
        some "TEMP_OCCUPIED"
      else v.grid c }

/-- `Container.restoreTemporaryState`: restore the snapshot, if one exists. -/
def restoreTemporaryState (v : FragView) : FragView :=
  match v.tempState with
  | some g => { v with grid := g, tempState := none }
  | none => v

/-- The `while` loop of `analyzeSpaceFragmentation`: keep extracting the
largest empty box, marking it temporarily occupied, until the free volume is
covered, no box is found, or more than ten boxes have been collected.  The
search itself (`findLargestEmptySpace`, from the base class that is not among
the sources) is a parameter `f`; `fuel` bounds the recursion and is chosen
above the source's hard cap of ten collected boxes. -/
def fragLoop (f : FragView → Option EmptySpace) (freeVolume : Nat) :
    Nat → FragView → Nat → List (EmptySpace × Nat) → Option EmptySpace →
    FragView × List (EmptySpace × Nat)
  | 0, v, _, spaces, _ => (v, spaces)
  | fuel + 1, v, totalEmptyVolume, spaces, largestSpace =>
    match largestSpace with
    | none => (v, spaces)
    | some sp =>
      if totalEmptyVolume < freeVolume then
        let spaceVolume := sp.dimensions.width * sp.dimensions.depth *
          sp.dimensions.height
        let spaces2 := spaces ++ [(sp, spaceVolume)]
        let v2 := temporarilyOccupySpace v sp.position sp.dimensions
        if spaces2.length > 10 then (v2, spaces2)
        else fragLoop f freeVolume fuel v2 (totalEmptyVolume + spaceVolume)
          spaces2 (f v2)
      else (v, spaces)

/-- The summary record returned by `analyzeSpaceFragmentation`. -/
structure FragmentationReport where
  fragmentationIndex : ℚ
  largestEmptyVolume : Nat
  emptySpaces : Nat
deriving DecidableEq, Repr

/-- `Container.analyzeSpaceFragmentation`: run the largest-empty-box loop on
the grid, restore the snapshot, and report the fragmentation index (largest
empty volume over free volume). -/
def analyzeSpaceFragmentation (f : FragView → Option EmptySpace)
    (totalVolume usedVolume : Nat) (v : FragView) :
    FragmentationReport × FragView :=
  let freeVolume := totalVolume - usedVolume
  let (v2, spaces) := fragLoop f freeVolume 12 v 0 [] (f v)
  let v3 := restoreTemporaryState v2
  let largestEmptyVolume : Nat :=
    match spaces with
    | [] => 0
    | s :: _ => s.2
  ({ fragmentationIndex :=
       (largestEmptyVolume : ℚ) / ((totalVolume : ℚ) - (usedVolume : ℚ)),
     largestEmptyVolume := largestEmptyVolume,
     emptySpaces := spaces.length }, v3)

/-- Container states reachable by accepted operations: starting from an empty
container with positive dimensions, items with positive dimensions, fresh ids
and valid orientations are placed when `placeItem` accepts them, and items
are removed through `Container.removeItem` (which leaves the state unchanged
when it refuses). -/
inductive Reachable : GridState → Prop where
  | init (dims : Dimensions) (face : Face) (hw : 0 < dims.width)
      (hd : 0 < dims.depth) (hh : 0 < dims.height) :
      Reachable ⟨dims, face, fun _ => none, []⟩
  | place (s : GridState) (itemData : ItemData) (position : Position)
      (orientation : Orientation) (hr : Reachable s)
      (hfresh : ∀ it ∈ s.itemsData, it.id ≠ itemData.id)
      (hdims : 0 < itemData.dimensions.width ∧
        0 < itemData.dimensions.depth ∧ 0 < itemData.dimensions.height)
      (horient : orientation ∈ Orientation.getAllOrientations)
      (hok : (placeItem s itemData position orientation).1 = true) :
      Reachable (placeItem s itemData position orientation).2
  | remove (s : GridState) (itemId : String) (hr : Reachable s) :
      Reachable (removeItem s itemId).2

/-- The structural facts every reachable state satisfies: the container has
positive dimensions and every catalogue entry has positive effective
dimensions and a box inside the container. -/
def StateOK (s : GridState) : Prop :=
  (0 < s.dims.width ∧ 0 < s.dims.depth ∧ 0 < s.dims.height) ∧
  ∀ it ∈ s.itemsData,
    (0 < it.effectiveDimensions.width ∧ 0 < it.effectiveDimensions.depth ∧
      0 < it.effectiveDimensions.height) ∧
    (it.position.x + it.effectiveDimensions.width ≤ s.dims.width ∧
      it.position.y + it.effectiveDimensions.depth ≤ s.dims.depth ∧
      it.position.z + it.effectiveDimensions.height ≤ s.dims.height)

theorem effectiveDimensions_pos {o : Orientation}
    (ho : o ∈ Orientation.getAllOrientations) {d : Dimensions}
    (hd : 0 < d.width ∧ 0 < d.depth ∧ 0 < d.height) :
    0 < (o.getEffectiveDimensions d).width ∧
      0 < (o.getEffectiveDimensions d).depth ∧
      0 < (o.getEffectiveDimensions d).height := by
  obtain ⟨h1, h2, h3⟩ := hd
  simp only [Orientation.getAllOrientations, List.mem_cons,
    List.not_mem_nil, or_false] at ho
  rcases ho with rfl | rfl | rfl | rfl | rfl | rfl <;>
    refine ⟨?_, ?_, ?_⟩ <;>
    simp [Orientation.getEffectiveDimensions, List.getD] <;> omega

theorem isSpaceFree_empty {dims : Dimensions} {g : Grid} {pos : Position}
    {d : Dimensions} (h : isSpaceFree dims g pos d = true) :
    ∀ c : Position, inBox pos d c = true → g c = none := by
  rw [isSpaceFree, List.all_eq_true] at h
  intro c hc
  have := h c (mem_boxCells.mpr hc)
  rw [Bool.and_eq_true, Option.isNone_iff_eq_none] at this
  exact this.2

theorem isSpaceFree_bounds {dims : Dimensions} {g : Grid} {pos : Position}
    {d : Dimensions} (h : isSpaceFree dims g pos d = true)
    (hd : 0 < d.width ∧ 0 < d.depth ∧ 0 < d.height) :
    pos.x + d.width ≤ dims.width ∧ pos.y + d.depth ≤ dims.depth ∧
      pos.z + d.height ≤ dims.height := by
  rw [isSpaceFree, List.all_eq_true] at h
  have hc : (⟨pos.x + (d.width - 1), pos.y + (d.depth - 1),
      pos.z + (d.height - 1)⟩ : Position) ∈ boxCells pos d := by
    rw [mem_boxCells, inBox]
    simp only [decide_eq_true_eq]
    omega
  have hb := h _ hc
  rw [Bool.and_eq_true] at hb
  have hw := hb.1
  rw [isWithinBounds, decide_eq_true_eq] at hw
  simp only at hw
  omega

theorem mem_setItem {l : List PlacedItem} {r it : PlacedItem}
    (h : it ∈ setItem l r) : it ∈ l ∨ it = r := by
  rw [setItem] at h
  split at h
  · rw [List.mem_map] at h
    obtain ⟨p, hp, hpe⟩ := h
    by_cases hid : (p.id == r.id) = true
    · rw [if_pos hid] at hpe
      exact Or.inr hpe.symm
    · rw [if_neg hid] at hpe
      exact Or.inl (hpe ▸ hp)
  · rw [List.mem_append, List.mem_singleton] at h
    exact h

theorem placeItem_fst {s : GridState} {itemData : ItemData} {position : Position}
    {orientation : Orientation} :
    (placeItem s itemData position orientation).1 = true ↔
      isSpaceFree s.dims s.grid position
        (orientation.getEffectiveDimensions itemData.dimensions) = true := by
  rw [placeItem]
  split <;> simp_all

theorem placeItem_snd_of_free {s : GridState} {itemData : ItemData}
    {position : Position} {orientation : Orientation}
    (h : isSpaceFree s.dims s.grid position
      (orientation.getEffectiveDimensions itemData.dimensions) = true) :
    (placeItem s itemData position orientation).2 =
      { s with
        grid := occupySpace s.grid position
          (orientation.getEffectiveDimensions itemData.dimensions) itemData.id,
        itemsData := setItem s.itemsData
          ⟨itemData.id, position,
            orientation.getEffectiveDimensions itemData.dimensions⟩ } := by
  rw [placeItem]
  simp only [h, if_true]

theorem removeItem_snd {s : GridState} {itemId : String} :
    (removeItem s itemId).2 = s ∨
      (removeItem s itemId).2 = { s with grid := releaseSpace s.grid itemId } := by
  cases hl : lookupItem s itemId with
  | none => left; simp [removeItem, hl]
  | some it =>
    cases hA : isItemAccessibleOf s it with
    | false => left; simp [removeItem, hl, hA]
    | true => right; simp [removeItem, hl, hA]

theorem reachable_stateOK {s : GridState} (hr : Reachable s) : StateOK s := by
  induction hr with
  | init dims face hw hd hh => exact ⟨⟨hw, hd, hh⟩, by intro it h; cases h⟩
  | place s itemData position orientation hr hfresh hdims horient hok ih =>
    have hfree := placeItem_fst.mp hok
    rw [placeItem_snd_of_free hfree]
    obtain ⟨hcont, hitems⟩ := ih
    have heff := effectiveDimensions_pos horient hdims
    have hbounds := isSpaceFree_bounds hfree heff
    refine ⟨hcont, ?_⟩
    intro it hmem
    rcases mem_setItem hmem with hold | rfl
    · exact hitems it hold
    · exact ⟨heff, hbounds⟩
  | remove s itemId hr ih =>
    rcases @removeItem_snd s itemId with he | he <;>
      rw [he] <;> exact ih

theorem mem_addBlocker_of_mem {g : Grid} {tid : String} {acc : List String}
    {c : Position} {id2 : String} (h : id2 ∈ acc) :
    id2 ∈ addBlocker g tid acc c := by
  rw [addBlocker]
  cases g c with
  | none => exact h
  | some id3 =>
    dsimp only
    split
    · exact List.mem_append_left _ h
    · exact h

theorem mem_addBlocker_self {g : Grid} {tid : String} {acc : List String}
    {c : Position} {id2 : String} (hg : g c = some id2) (hne : id2 ≠ tid) :
    id2 ∈ addBlocker g tid acc c := by
  rw [addBlocker, hg]
  dsimp only
  by_cases hm : id2 ∈ acc
  · split
    · exact List.mem_append_left _ hm
    · exact hm
  · rw [if_pos ⟨hne, hm⟩]
    exact List.mem_append_right _ (List.mem_singleton.mpr rfl)

theorem mem_foldl_addBlocker (g : Grid) (tid : String)
    (cells : List Position) :
    ∀ (acc : List String) (id2 : String),
      id2 ∈ cells.foldl (addBlocker g tid) acc ↔
        id2 ∈ acc ∨ (id2 ≠ tid ∧ ∃ c, c ∈ cells ∧ g c = some id2) := by
  induction cells with
  | nil => intro acc id2; simp
  | cons c cs ih =>
    intro acc id2
    rw [List.foldl_cons, ih]
    constructor
    · rintro (hacc | ⟨hne, c2, hc2, hg2⟩)
      · rw [addBlocker] at hacc
        cases hgc : g c with
        | none => rw [hgc] at hacc; exact Or.inl hacc
        | some id3 =>
          rw [hgc] at hacc
          dsimp only at hacc
          by_cases hcond : id3 ≠ tid ∧ id3 ∉ acc
          · rw [if_pos hcond] at hacc
            rcases List.mem_append.mp hacc with h | h
            · exact Or.inl h
            · rw [List.mem_singleton] at h
              subst h
              exact Or.inr ⟨hcond.1, c, List.mem_cons_self c cs, hgc⟩
          · rw [if_neg hcond] at hacc
            exact Or.inl hacc
      · exact Or.inr ⟨hne, c2, List.mem_cons_of_mem c hc2, hg2⟩
    · rintro (hacc | ⟨hne, c2, hc2, hg2⟩)
      · exact Or.inl (mem_addBlocker_of_mem hacc)
      · rcases List.mem_cons.mp hc2 with rfl | h
        · exact Or.inl (mem_addBlocker_self hg2 hne)
        · exact Or.inr ⟨hne, c2, h, hg2⟩

theorem mem_collectBlockers {g : Grid} {tid : String} {cells : List Position}
    {id2 : String} :
    id2 ∈ collectBlockers g tid cells ↔
      id2 ≠ tid ∧ ∃ c, c ∈ cells ∧ g c = some id2 := by
  rw [collectBlockers, mem_foldl_addBlocker]
  simp

theorem nodup_foldl_addBlocker (g : Grid) (tid : String)
    (cells : List Position) :
    ∀ acc : List String, acc.Nodup →
      (cells.foldl (addBlocker g tid) acc).Nodup := by
  induction cells with
  | nil => intro acc h; exact h
  | cons c cs ih =>
    intro acc h
    rw [List.foldl_cons]
    apply ih
    rw [addBlocker]
    cases g c with
    | none => exact h
    | some id3 =>
      dsimp only
      by_cases hcond : id3 ≠ tid ∧ id3 ∉ acc
      · rw [if_pos hcond]
        simp [List.nodup_append, h, hcond.2]
      · rw [if_neg hcond]
        exact h

theorem nodup_collectBlockers {g : Grid} {tid : String}
    {cells : List Position} : (collectBlockers g tid cells).Nodup := by
  rw [collectBlockers]
  exact nodup_foldl_addBlocker g tid cells [] List.nodup_nil

theorem collectBlockers_eq_nil {g : Grid} {tid : String}
    {cells : List Position} (h : collectBlockers g tid cells = []) :
    ∀ c ∈ cells, ∀ id2, g c = some id2 → id2 = tid := by
  intro c hc id2 hg
  by_contra hne
  have hmem : id2 ∈ collectBlockers g tid cells :=
    mem_collectBlockers.mpr ⟨hne, c, hc, hg⟩
  rw [h] at hmem
  exact absurd hmem (List.not_mem_nil id2)

/-- The extraction corridor as the specification words it: the cells matching
the item's cross-section on the two axes perpendicular to the extraction axis
and lying strictly between the item's near face and the open face. -/
def inExtractionCorridor (dims : Dimensions) (face : Face) (pos : Position)
    (eff : Dimensions) (c : Position) : Bool :=
  match face with
  | .front => decide (pos.x ≤ c.x ∧ c.x < pos.x + eff.width ∧
      pos.z ≤ c.z ∧ c.z < pos.z + eff.height ∧ c.y < pos.y)
  | .back => decide (pos.x ≤ c.x ∧ c.x < pos.x + eff.width ∧
      pos.z ≤ c.z ∧ c.z < pos.z + eff.height ∧
      pos.y + eff.depth ≤ c.y ∧ c.y < dims.depth)
  | .left => decide (pos.y ≤ c.y ∧ c.y < pos.y + eff.depth ∧
      pos.z ≤ c.z ∧ c.z < pos.z + eff.height ∧ c.x < pos.x)
  | .right => decide (pos.y ≤ c.y ∧ c.y < pos.y + eff.depth ∧
      pos.z ≤ c.z ∧ c.z < pos.z + eff.height ∧
      pos.x + eff.width ≤ c.x ∧ c.x < dims.width)
  | .top => decide (pos.x ≤ c.x ∧ c.x < pos.x + eff.width ∧
      pos.y ≤ c.y ∧ c.y < pos.y + eff.depth ∧
      pos.z + eff.height ≤ c.z ∧ c.z < dims.height)
  | .bottom => decide (pos.x ≤ c.x ∧ c.x < pos.x + eff.width ∧
      pos.y ≤ c.y ∧ c.y < pos.y + eff.depth ∧ c.z < pos.z)

theorem mem_corridorCells {dims : Dimensions} {face : Face} {pos : Position}
    {eff : Dimensions} {c : Position} :
    c ∈ corridorCells dims face pos eff ↔
      inExtractionCorridor dims face pos eff c = true := by
  cases face <;>
    simp only [corridorCells, inExtractionCorridor, mem_cellProd,
      mem_rangeFromLen, List.mem_range, decide_eq_true_eq] <;>
    omega

theorem visScore_eq (s : GridState) (it : PlacedItem) :
    calculateVisibilityScoreOf s it =
      (((boxCells it.position it.effectiveDimensions).countP
          (fun c => cellVisible s it.id c) : ℚ) /
        ((boxCells it.position it.effectiveDimensions).length : ℚ)) * 100 :=
  rfl

theorem accessScore_eq (s : GridState) (it : PlacedItem) :
    calculateAccessibilityScoreOf s it =
      (calculateVisibilityScoreOf s it / 100) * 40 +
      max 0 (40 - ((findBlockingItemsOf s it).length : ℚ) * 10) +
      max 0 (20 - (distanceFromFace s it / maxDistanceOf s) * 20) :=
  rfl

theorem visScore_nonneg (s : GridState) (it : PlacedItem) :
    0 ≤ calculateVisibilityScoreOf s it := by
  rw [visScore_eq]
  positivity

theorem visScore_le_100 (s : GridState) (it : PlacedItem) :
    calculateVisibilityScoreOf s it ≤ 100 := by
  rw [visScore_eq]
  rcases Nat.eq_zero_or_pos
      (boxCells it.position it.effectiveDimensions).length with h | h
  · rw [h]
    norm_num
  · have hle := @List.countP_le_length Position
      (fun c => cellVisible s it.id c)
      (boxCells it.position it.effectiveDimensions)
    have h1 : ((boxCells it.position it.effectiveDimensions).countP
        (fun c => cellVisible s it.id c) : ℚ) /
        ((boxCells it.position it.effectiveDimensions).length : ℚ) ≤ 1 := by
      rw [div_le_one (by exact_mod_cast h)]
      exact_mod_cast hle
    calc ((boxCells it.position it.effectiveDimensions).countP
          (fun c => cellVisible s it.id c) : ℚ) /
          ((boxCells it.position it.effectiveDimensions).length : ℚ) * 100 ≤
        1 * 100 := by
          apply mul_le_mul_of_nonneg_right h1
          norm_num
      _ = 100 := one_mul 100

theorem boxCells_ne_nil {pos : Position} {d : Dimensions}
    (hd : 0 < d.width ∧ 0 < d.depth ∧ 0 < d.height) : boxCells pos d ≠ [] := by
  intro h
  have hmem : (⟨pos.x, pos.y, pos.z⟩ : Position) ∈ boxCells pos d := by
    rw [mem_boxCells, inBox]
    simp only [decide_eq_true_eq]
    omega
  rw [h] at hmem
  exact absurd hmem (List.not_mem_nil _)

theorem visScore_eq_100_of_all (s : GridState) (it : PlacedItem)
    (hne : boxCells it.position it.effectiveDimensions ≠ [])
    (hall : ∀ c ∈ boxCells it.position it.effectiveDimensions,
      cellVisible s it.id c = true) :
    calculateVisibilityScoreOf s it = 100 := by
  rw [visScore_eq]
  have hN : ((boxCells it.position it.effectiveDimensions).length : ℚ) ≠ 0 :=
    Nat.cast_ne_zero.mpr (fun h0 => hne (List.length_eq_zero.mp h0))
  rw [List.countP_eq_length.mpr hall, div_self hN, one_mul]

/-- C1: on every reachable container state, for every placed item (its box
painted with its id in the grid), `calculateAccessibilityScore` returns a
value in `[0, 100]`; and when the item's box touches the open face and
`findBlockingItems` returns the empty set, that value is at least 80. -/
theorem accessibilityScore_bounds (s : GridState) (itemId : String)
    (it : PlacedItem) (hr : Reachable s)
    (hlook : lookupItem s itemId = some it)
    (hpaint : ∀ c, inBox it.position it.effectiveDimensions c = true →
      s.grid c = some it.id) :
    calculateAccessibilityScore s itemId =
        .ok (calculateAccessibilityScoreOf s it) ∧
      0 ≤ calculateAccessibilityScoreOf s it ∧
      calculateAccessibilityScoreOf s it ≤ 100 ∧
      (isItemVisibleOf s it = true → findBlockingItemsOf s it = [] →
        80 ≤ calculateAccessibilityScoreOf s it) := by
  have hmem : it ∈ s.itemsData := List.mem_of_find?_eq_some hlook
  obtain ⟨hcont, hitems⟩ := reachable_stateOK hr
  obtain ⟨heff, hbounds⟩ := hitems it hmem
  obtain ⟨hb1, hb2, hb3⟩ := hbounds
  obtain ⟨he1, he2, he3⟩ := heff
  obtain ⟨hc1, hc2, hc3⟩ := hcont
  have hdistge : 0 ≤ distanceFromFace s it := by
    cases hface : s.openFace with
    | front => simp [distanceFromFace, hface]
    | back =>
      simp only [distanceFromFace, hface]
      rw [sub_nonneg]
      exact_mod_cast hb2
    | left => simp [distanceFromFace, hface]
    | right =>
      simp only [distanceFromFace, hface]
      rw [sub_nonneg]
      exact_mod_cast hb1
    | top =>
      simp only [distanceFromFace, hface]
      rw [sub_nonneg]
      exact_mod_cast hb3
    | bottom => simp [distanceFromFace, hface]
  have hmaxge : 0 ≤ maxDistanceOf s := by
    cases hface : s.openFace <;> simp [maxDistanceOf, hface]
  have hvis0 := visScore_nonneg s it
  have hvis100 := visScore_le_100 s it
  have hterm1a : 0 ≤ (calculateVisibilityScoreOf s it / 100) * 40 := by
    have := div_nonneg hvis0 (by norm_num : (0:ℚ) ≤ 100)
    linarith
  have hterm1b : (calculateVisibilityScoreOf s it / 100) * 40 ≤ 40 := by
    have hd1 : calculateVisibilityScoreOf s it / 100 ≤ 1 := by
      rw [div_le_one (by norm_num : (0:ℚ) < 100)]
      exact hvis100
    calc (calculateVisibilityScoreOf s it / 100) * 40 ≤ 1 * 40 :=
        mul_le_mul_of_nonneg_right hd1 (by norm_num)
      _ = 40 := one_mul 40
  have hlen0 : (0:ℚ) ≤ ((findBlockingItemsOf s it).length : ℚ) * 10 := by
    positivity
  have hterm2a : (0:ℚ) ≤
      max 0 (40 - ((findBlockingItemsOf s it).length : ℚ) * 10) :=
    le_max_left _ _
  have hterm2b :
      max 0 (40 - ((findBlockingItemsOf s it).length : ℚ) * 10) ≤ 40 :=
    max_le (by norm_num) (by linarith)
  have hdm : 0 ≤ (distanceFromFace s it / maxDistanceOf s) * 20 :=
    mul_nonneg (div_nonneg hdistge hmaxge) (by norm_num)
  have hterm3a : (0:ℚ) ≤
      max 0 (20 - (distanceFromFace s it / maxDistanceOf s) * 20) :=
    le_max_left _ _
  have hterm3b :
      max 0 (20 - (distanceFromFace s it / maxDistanceOf s) * 20) ≤ 20 :=
    max_le (by norm_num) (by linarith)
  refine ⟨by simp [calculateAccessibilityScore, hlook], ?_, ?_, ?_⟩
  · rw [accessScore_eq]
    linarith
  · rw [accessScore_eq]
    linarith
  · intro hvisb hblock
    have hclear : ∀ c ∈ corridorCells s.dims s.openFace it.position
        it.effectiveDimensions, ∀ id2, s.grid c = some id2 → id2 = it.id := by
      rw [findBlockingItemsOf] at hblock
      exact collectBlockers_eq_nil hblock
    have hall : ∀ c ∈ boxCells it.position it.effectiveDimensions,
        cellVisible s it.id c = true := by
      intro c hc
      rw [mem_boxCells, inBox, decide_eq_true_eq] at hc
      rw [cellVisible, List.all_eq_true]
      intro p hp
      have key : s.grid p = none ∨ s.grid p = some it.id →
          (!(isPositionOccupied s.grid p && !(s.grid p == some it.id)))
            = true := by
        rintro (h | h) <;> simp [isPositionOccupied, h]
      apply key
      cases hface : s.openFace with
      | front =>
        rw [hface] at hp
        simp only [colCells, List.mem_map, List.mem_range] at hp
        obtain ⟨cy, hcy, rfl⟩ := hp
        by_cases hcase : cy < it.position.y
        · cases hg : s.grid ⟨c.x, cy, c.z⟩ with
          | none => exact Or.inl rfl
          | some id2 =>
            right
            have hcor : (⟨c.x, cy, c.z⟩ : Position) ∈ corridorCells s.dims
                s.openFace it.position it.effectiveDimensions := by
              rw [hface, mem_corridorCells, inExtractionCorridor]
              simp only [decide_eq_true_eq]
              omega
            rw [hclear _ hcor id2 hg]
        · have hbox : inBox it.position it.effectiveDimensions
              ⟨c.x, cy, c.z⟩ = true := by
            rw [inBox]
            simp only [decide_eq_true_eq]
            omega
          exact Or.inr (hpaint _ hbox)
      | back =>
        rw [hface] at hp
        simp only [colCells, List.mem_map, mem_rangeFromLen] at hp
        obtain ⟨cy, hcy, rfl⟩ := hp
        by_cases hcase : cy <
            it.position.y + it.effectiveDimensions.depth
        · have hbox : inBox it.position it.effectiveDimensions
              ⟨c.x, cy, c.z⟩ = true := by
            rw [inBox]
            simp only [decide_eq_true_eq]
            omega
          exact Or.inr (hpaint _ hbox)
        · cases hg : s.grid ⟨c.x, cy, c.z⟩ with
          | none => exact Or.inl rfl
          | some id2 =>
            right
            have hcor : (⟨c.x, cy, c.z⟩ : Position) ∈ corridorCells s.dims
                s.openFace it.position it.effectiveDimensions := by
              rw [hface, mem_corridorCells, inExtractionCorridor]
              simp only [decide_eq_true_eq]
              omega
            rw [hclear _ hcor id2 hg]
      | left =>
        rw [hface] at hp
        simp only [colCells, List.mem_map, List.mem_range] at hp
        obtain ⟨cx, hcx, rfl⟩ := hp
        by_cases hcase : cx < it.position.x
        · cases hg : s.grid ⟨cx, c.y, c.z⟩ with
          | none => exact Or.inl rfl
          | some id2 =>
            right
            have hcor : (⟨cx, c.y, c.z⟩ : Position) ∈ corridorCells s.dims
                s.openFace it.position it.effectiveDimensions := by
              rw [hface, mem_corridorCells, inExtractionCorridor]
              simp only [decide_eq_true_eq]
              omega
            rw [hclear _ hcor id2 hg]
        · have hbox : inBox it.position it.effectiveDimensions
              ⟨cx, c.y, c.z⟩ = true := by
            rw [inBox]
            simp only [decide_eq_true_eq]
            omega
          exact Or.inr (hpaint _ hbox)
      | right =>
        rw [hface] at hp
        simp only [colCells, List.mem_map, mem_rangeFromLen] at hp
        obtain ⟨cx, hcx, rfl⟩ := hp
        by_cases hcase : cx <
            it.position.x + it.effectiveDimensions.width
        · have hbox : inBox it.position it.effectiveDimensions
              ⟨cx, c.y, c.z⟩ = true := by
            rw [inBox]
            simp only [decide_eq_true_eq]
            omega
          exact Or.inr (hpaint _ hbox)
        · cases hg : s.grid ⟨cx, c.y, c.z⟩ with
          | none => exact Or.inl rfl
          | some id2 =>
            right
            have hcor : (⟨cx, c.y, c.z⟩ : Position) ∈ corridorCells s.dims
                s.openFace it.position it.effectiveDimensions := by
              rw [hface, mem_corridorCells, inExtractionCorridor]
              simp only [decide_eq_true_eq]
              omega
            rw [hclear _ hcor id2 hg]
      | top =>
        rw [hface] at hp
        simp only [colCells, List.mem_map, mem_rangeFromLen] at hp
        obtain ⟨cz, hcz, rfl⟩ := hp
        by_cases hcase : cz <
            it.position.z + it.effectiveDimensions.height
        · have hbox : inBox it.position it.effectiveDimensions
              ⟨c.x, c.y, cz⟩ = true := by
            rw [inBox]
            simp only [decide_eq_true_eq]
            omega
          exact Or.inr (hpaint _ hbox)
        · cases hg : s.grid ⟨c.x, c.y, cz⟩ with
          | none => exact Or.inl rfl
          | some id2 =>
            right
            have hcor : (⟨c.x, c.y, cz⟩ : Position) ∈ corridorCells s.dims
                s.openFace it.position it.effectiveDimensions := by
              rw [hface, mem_corridorCells, inExtractionCorridor]
              simp only [decide_eq_true_eq]
              omega
            rw [hclear _ hcor id2 hg]
      | bottom =>
        rw [hface] at hp
        simp only [colCells, List.mem_map, List.mem_range] at hp
        obtain ⟨cz, hcz, rfl⟩ := hp
        by_cases hcase : cz < it.position.z
        · cases hg : s.grid ⟨c.x, c.y, cz⟩ with
          | none => exact Or.inl rfl
          | some id2 =>
            right
            have hcor : (⟨c.x, c.y, cz⟩ : Position) ∈ corridorCells s.dims
                s.openFace it.position it.effectiveDimensions := by
              rw [hface, mem_corridorCells, inExtractionCorridor]
              simp only [decide_eq_true_eq]
              omega
            rw [hclear _ hcor id2 hg]
        · have hbox : inBox it.position it.effectiveDimensions
              ⟨c.x, c.y, cz⟩ = true := by
            rw [inBox]
            simp only [decide_eq_true_eq]
            omega
          exact Or.inr (hpaint _ hbox)
    have h100 : calculateVisibilityScoreOf s it = 100 :=
      visScore_eq_100_of_all s it (boxCells_ne_nil ⟨he1, he2, he3⟩) hall
    have hd0 : distanceFromFace s it = 0 := by
      cases hface : s.openFace with
      | front =>
        simp only [isItemVisibleOf, hface, beq_iff_eq] at hvisb
        simp [distanceFromFace, hface, hvisb]
      | back =>
        simp only [isItemVisibleOf, hface, beq_iff_eq] at hvisb
        have hsum : it.position.y + it.effectiveDimensions.depth =
            s.dims.depth := by omega
        simp only [distanceFromFace, hface]
        rw [sub_eq_zero]
        exact_mod_cast hsum.symm
      | left =>
        simp only [isItemVisibleOf, hface, beq_iff_eq] at hvisb
        simp [distanceFromFace, hface, hvisb]
      | right =>
        simp only [isItemVisibleOf, hface, beq_iff_eq] at hvisb
        have hsum : it.position.x + it.effectiveDimensions.width =
            s.dims.width := by omega
        simp only [distanceFromFace, hface]
        rw [sub_eq_zero]
        exact_mod_cast hsum.symm
      | top =>
        simp only [isItemVisibleOf, hface, beq_iff_eq] at hvisb
        have hsum : it.position.z + it.effectiveDimensions.height =
            s.dims.height := by omega
        simp only [distanceFromFace, hface]
        rw [sub_eq_zero]
        exact_mod_cast hsum.symm
      | bottom =>
        simp only [isItemVisibleOf, hface, beq_iff_eq] at hvisb
        simp [distanceFromFace, hface, hvisb]
    rw [accessScore_eq, h100, hblock, hd0]
    norm_num

/-- A concrete 2×2×1 front-open container, initially empty. -/
def c1Init : GridState := ⟨⟨2, 2, 1⟩, .front, fun _ => none, []⟩

/-- A concrete unit item to place at the origin of `c1Init`. -/
def c1ItemData : ItemData := ⟨"A", ⟨1, 1, 1⟩⟩

/-- The state after placing `c1ItemData` at the origin. -/
def c1State : GridState :=
  (placeItem c1Init c1ItemData ⟨0, 0, 0⟩ ⟨0, 1, 2⟩).2

/-- The catalogue entry created by that placement. -/
def c1Item : PlacedItem := ⟨"A", ⟨0, 0, 0⟩, ⟨1, 1, 1⟩⟩

theorem accessibilityScore_bounds_witness :
    0 ≤ calculateAccessibilityScoreOf c1State c1Item ∧
      calculateAccessibilityScoreOf c1State c1Item ≤ 100 ∧
      80 ≤ calculateAccessibilityScoreOf c1State c1Item := by
  have hr : Reachable c1State := by
    apply Reachable.place c1Init c1ItemData ⟨0, 0, 0⟩ ⟨0, 1, 2⟩
    · exact Reachable.init ⟨2, 2, 1⟩ .front (by norm_num) (by norm_num)
        (by norm_num)
    · intro it2 h
      simp [c1Init] at h
    · exact ⟨by decide, by decide, by decide⟩
    · decide
    · rfl
  have hlook : lookupItem c1State "A" = some c1Item := by rfl
  have hpaint : ∀ c, inBox c1Item.position c1Item.effectiveDimensions c =
      true → c1State.grid c = some c1Item.id := by
    intro c hcb
    have hcb2 : inBox (⟨0, 0, 0⟩ : Position) (⟨1, 1, 1⟩ : Dimensions) c =
        true := hcb
    show (if inBox (⟨0, 0, 0⟩ : Position) (⟨1, 1, 1⟩ : Dimensions) c then
        some "A" else none) = some "A"
    simp [hcb2]
  have h := accessibilityScore_bounds c1State "A" c1Item hr hlook hpaint
  exact ⟨h.2.1, h.2.2.1, h.2.2.2 (by rfl) (by rfl)⟩

theorem find?_append_of_not_any (l : List PlacedItem) (r : PlacedItem)
    (h : l.any (fun p => p.id == r.id) = false) :
    (l ++ [r]).find? (fun p => p.id == r.id) = some r := by
  induction l with
  | nil => simp [List.find?]
  | cons a l ih =>
    rw [List.any_cons, Bool.or_eq_false_iff] at h
    rw [List.cons_append, List.find?_cons, h.1]
    exact ih h.2

theorem find?_map_of_any (l : List PlacedItem) (r : PlacedItem)
    (h : l.any (fun p => p.id == r.id) = true) :
    (l.map (fun p => if p.id == r.id then r else p)).find?
      (fun p => p.id == r.id) = some r := by
  induction l with
  | nil => simp at h
  | cons a l ih =>
    rw [List.any_cons, Bool.or_eq_true] at h
    rw [List.map_cons]
    by_cases ha : (a.id == r.id) = true
    · rw [if_pos ha, List.find?_cons]
      simp
    · rw [if_neg ha, List.find?_cons, Bool.eq_false_iff.mpr ha]
      exact ih (h.resolve_left ha)

theorem find?_setItem (l : List PlacedItem) (r : PlacedItem) :
    (setItem l r).find? (fun p => p.id == r.id) = some r := by
  rw [setItem]
  by_cases h : l.any (fun p => p.id == r.id) = true
  · rw [if_pos h]
    exact find?_map_of_any l r h
  · rw [if_neg h]
    exact find?_append_of_not_any l r (Bool.not_eq_true _ ▸ h)

/-- The same 2×2×1 front-open empty container, for the round-trip law. -/
def c2Init : GridState := ⟨⟨2, 2, 1⟩, .front, fun _ => none, []⟩

/-- The state after placing item "A" one cell behind the open face. -/
def c2State : GridState :=
  (placeItem c2Init ⟨"A", ⟨1, 1, 1⟩⟩ ⟨0, 1, 0⟩ ⟨0, 1, 2⟩).2

/-- C2 counterexample: `placeItem` accepts item "A" at depth 1, but
`Container.removeItem` then refuses (the item is not visible from the open
face), so the grid still holds "A" where it was empty before — place-then-
remove does not restore the grid on this input. -/
theorem placeRemove_not_restoring :
    (placeItem c2Init ⟨"A", ⟨1, 1, 1⟩⟩ ⟨0, 1, 0⟩ ⟨0, 1, 2⟩).1 = true ∧
      (removeItem c2State "A").1 = false ∧
      ((removeItem c2State "A").2).grid ⟨0, 1, 0⟩ = some "A" ∧
      c2Init.grid ⟨0, 1, 0⟩ = none := by
  exact ⟨rfl, rfl, rfl, rfl⟩

/-- C2 as amended: when no grid cell holds the item's id beforehand, the
placement is accepted, and the freshly placed item is directly accessible
(so `removeItem` succeeds), removing it restores the grid cell-for-cell. -/
theorem placeRemove_roundtrip (s : GridState) (itemData : ItemData)
    (position : Position) (orientation : Orientation)
    (hfresh : ∀ c : Position, s.grid c ≠ some itemData.id)
    (hok : (placeItem s itemData position orientation).1 = true)
    (hacc : isItemAccessibleOf (placeItem s itemData position orientation).2
      ⟨itemData.id, position,
        orientation.getEffectiveDimensions itemData.dimensions⟩ = true) :
    (removeItem (placeItem s itemData position orientation).2
        itemData.id).1 = true ∧
      ∀ c : Position,
        ((removeItem (placeItem s itemData position orientation).2
          itemData.id).2).grid c = s.grid c := by
  have hfree := placeItem_fst.mp hok
  have hsnd := @placeItem_snd_of_free s itemData position orientation hfree
  have hlook : lookupItem (placeItem s itemData position orientation).2
      itemData.id = some ⟨itemData.id, position,
        orientation.getEffectiveDimensions itemData.dimensions⟩ := by
    rw [hsnd, lookupItem]
    dsimp only
    exact find?_setItem s.itemsData ⟨itemData.id, position,
      orientation.getEffectiveDimensions itemData.dimensions⟩
  have hrem : removeItem (placeItem s itemData position orientation).2
      itemData.id = (true,
        { (placeItem s itemData position orientation).2 with
          grid := releaseSpace
            ((placeItem s itemData position orientation).2).grid
            itemData.id }) := by
    rw [removeItem, hlook]
    dsimp only
    rw [if_pos hacc]
  refine ⟨by rw [hrem], ?_⟩
  intro c
  rw [hrem]
  dsimp only
  rw [hsnd]
  dsimp only
  by_cases hb : inBox position
      (orientation.getEffectiveDimensions itemData.dimensions) c = true
  · have hnone := isSpaceFree_empty hfree c hb
    simp [releaseSpace, occupySpace, hb, hnone]
  · simp [releaseSpace, occupySpace, hb, hfresh c]

theorem placeRemove_roundtrip_witness :
    (∀ c : Position, c2Init.grid c ≠ some "B") ∧
      (removeItem (placeItem c2Init ⟨"B", ⟨1, 1, 1⟩⟩ ⟨0, 0, 0⟩
          ⟨0, 1, 2⟩).2 "B").1 = true ∧
      ∀ c : Position,
        ((removeItem (placeItem c2Init ⟨"B", ⟨1, 1, 1⟩⟩ ⟨0, 0, 0⟩
          ⟨0, 1, 2⟩).2 "B").2).grid c = c2Init.grid c := by
  have hfresh : ∀ c : Position, c2Init.grid c ≠ some "B" := by
    intro c
    simp [c2Init]
  have h := placeRemove_roundtrip c2Init ⟨"B", ⟨1, 1, 1⟩⟩ ⟨0, 0, 0⟩ ⟨0, 1, 2⟩
    hfresh (by rfl) (by rfl)
  exact ⟨hfresh, h.1, h.2⟩

/-- C3: `findBlockingItems` returns exactly the distinct ids, other than the
target's, occupying at least one cell of the target's extraction corridor
(the spec-worded `inExtractionCorridor`); an item whose cells all lie outside
the corridor — in particular outside the projected footprint — is never
returned. -/
theorem findBlockingItems_characterization (s : GridState)
    (targetItemId : String) (it : PlacedItem)
    (hlook : lookupItem s targetItemId = some it) :
    findBlockingItems s targetItemId = .ok (findBlockingItemsOf s it) ∧
      (findBlockingItemsOf s it).Nodup ∧
      (∀ id2 : String, id2 ∈ findBlockingItemsOf s it ↔
        id2 ≠ it.id ∧ ∃ c : Position,
          inExtractionCorridor s.dims s.openFace it.position
            it.effectiveDimensions c = true ∧ s.grid c = some id2) ∧
      (∀ other : PlacedItem, other ∈ s.itemsData →
        (∀ c : Position, s.grid c = some other.id →
          inBox other.position other.effectiveDimensions c = true) →
        (∀ c : Position,
          inBox other.position other.effectiveDimensions c = true →
          inExtractionCorridor s.dims s.openFace it.position
            it.effectiveDimensions c = false) →
        other.id ∉ findBlockingItemsOf s it) := by
  refine ⟨by simp [findBlockingItems, hlook], nodup_collectBlockers, ?_, ?_⟩
  · intro id2
    rw [findBlockingItemsOf, mem_collectBlockers]
    constructor
    · rintro ⟨hne, c, hc, hg⟩
      exact ⟨hne, c, mem_corridorCells.mp hc, hg⟩
    · rintro ⟨hne, c, hc, hg⟩
      exact ⟨hne, c, mem_corridorCells.mpr hc, hg⟩
  · intro other hmem hown hdisj hin
    rw [findBlockingItemsOf, mem_collectBlockers] at hin
    obtain ⟨hne, c, hc, hg⟩ := hin
    have hbox := hown c hg
    have hfalse := hdisj c hbox
    rw [mem_corridorCells, hfalse] at hc
    exact Bool.false_ne_true hc

/-- The seed scenario: a 4×4×4 front-open container with `ITEM_A` (2×2×2 at
the origin) in front of `ITEM_B` (2×2×2 at depth 2). -/
def c3State : GridState :=
  (placeItem
    (placeItem ⟨⟨4, 4, 4⟩, .front, fun _ => none, []⟩
      ⟨"ITEM_A", ⟨2, 2, 2⟩⟩ ⟨0, 0, 0⟩ ⟨0, 1, 2⟩).2
    ⟨"ITEM_B", ⟨2, 2, 2⟩⟩ ⟨0, 2, 0⟩ ⟨0, 1, 2⟩).2

/-- The catalogue entry of `ITEM_B` in `c3State`. -/
def c3ItemB : PlacedItem := ⟨"ITEM_B", ⟨0, 2, 0⟩, ⟨2, 2, 2⟩⟩

theorem findBlockingItems_characterization_witness :
    lookupItem c3State "ITEM_B" = some c3ItemB ∧
      findBlockingItemsOf c3State c3ItemB = ["ITEM_A"] ∧
      ("ITEM_A" ∈ findBlockingItemsOf c3State c3ItemB ↔
        "ITEM_A" ≠ c3ItemB.id ∧ ∃ c : Position,
          inExtractionCorridor c3State.dims c3State.openFace c3ItemB.position
            c3ItemB.effectiveDimensions c = true ∧
          c3State.grid c = some "ITEM_A") := by
  have hlook : lookupItem c3State "ITEM_B" = some c3ItemB := by rfl
  have h := findBlockingItems_characterization c3State "ITEM_B" c3ItemB hlook
  exact ⟨hlook, by rfl, h.2.2.1 "ITEM_A"⟩

/-- C4: the retrieval plan's move list equals `findBlockingItems` in the same
enumeration order; when the target is visible and unblocked the plan is the
single direct-retrieve step, and otherwise the steps are one move per blocker
followed by the retrieve step. -/
theorem generateRetrievalPlan_moves (s : GridState) (targetItemId : String)
    (it : PlacedItem) (hlook : lookupItem s targetItemId = some it) :
    generateRetrievalPlan s targetItemId =
        .ok (generateRetrievalPlanOf s it) ∧
      (generateRetrievalPlanOf s it).itemsToMove = findBlockingItemsOf s it ∧
      (isItemVisibleOf s it = true → findBlockingItemsOf s it = [] →
        generateRetrievalPlanOf s it =
          ⟨it.id, [], ["Retrieve item " ++ it.id ++ " directly"]⟩) ∧
      (¬(isItemVisibleOf s it = true ∧ findBlockingItemsOf s it = []) →
        (generateRetrievalPlanOf s it).steps =
          (findBlockingItemsOf s it).map
              (fun b => "Move item " ++ b ++ " to access " ++ it.id) ++
            ["Retrieve item " ++ it.id]) := by
  refine ⟨by simp [generateRetrievalPlan, hlook], ?_, ?_, ?_⟩
  · rw [generateRetrievalPlanOf]
    by_cases hcond : (isItemVisibleOf s it &&
        (findBlockingItemsOf s it).length == 0) = true
    · rw [if_pos hcond]
      rw [Bool.and_eq_true] at hcond
      have hlen : (findBlockingItemsOf s it).length = 0 := by
        have h2 := hcond.2
        simpa using h2
      exact (List.length_eq_zero.mp hlen).symm
    · rw [if_neg hcond]
  · intro hv hb
    rw [generateRetrievalPlanOf, if_pos]
    rw [hv, hb]
    rfl
  · intro hnc
    rw [generateRetrievalPlanOf, if_neg]
    intro hcond
    rw [Bool.and_eq_true] at hcond
    apply hnc
    refine ⟨hcond.1, List.length_eq_zero.mp ?_⟩
    have h2 := hcond.2
    simpa using h2

/-- A 2×2×1 front-open container with target "T" sitting on the open face. -/
def c4State : GridState :=
  (placeItem ⟨⟨2, 2, 1⟩, .front, fun _ => none, []⟩
    ⟨"T", ⟨1, 1, 1⟩⟩ ⟨0, 0, 0⟩ ⟨0, 1, 2⟩).2

/-- The catalogue entry of "T" in `c4State`. -/
def c4Item : PlacedItem := ⟨"T", ⟨0, 0, 0⟩, ⟨1, 1, 1⟩⟩

theorem generateRetrievalPlan_moves_witness :
    lookupItem c4State "T" = some c4Item ∧
      (generateRetrievalPlanOf c4State c4Item).itemsToMove =
        findBlockingItemsOf c4State c4Item ∧
      generateRetrievalPlanOf c4State c4Item =
        ⟨"T", [], ["Retrieve item T directly"]⟩ := by
  have hlook : lookupItem c4State "T" = some c4Item := by rfl
  have h := generateRetrievalPlan_moves c4State "T" c4Item hlook
  exact ⟨hlook, h.2.1, h.2.2.1 (by rfl) (by rfl)⟩

/-- C9: for a front-open container and a placed item at depth `y = 0`, the
blocker corridor (whose source upper bound `itemPos.y - 1` is `-1`) is the
empty cell list — no grid cell is read at all — and `findBlockingItems`
returns the empty set. -/
theorem findBlockingItems_frontFace_at_zero (s : GridState)
    (targetItemId : String) (it : PlacedItem) (hface : s.openFace = .front)
    (hlook : lookupItem s targetItemId = some it)
    (hy : it.position.y = 0) :
    corridorCells s.dims s.openFace it.position it.effectiveDimensions =
        [] ∧
      findBlockingItemsOf s it = [] ∧
      findBlockingItems s targetItemId = .ok [] := by
  have hcor : corridorCells s.dims s.openFace it.position
      it.effectiveDimensions = [] := by
    rw [hface, corridorCells]
    rw [hy]
    simp [cellProd]
  refine ⟨hcor, ?_, ?_⟩
  · unfold findBlockingItemsOf
    rw [hcor]
    rfl
  · rw [findBlockingItems, hlook]
    dsimp only
    unfold findBlockingItemsOf
    rw [hcor]
    rfl

/-- A 3×3×1 front-open container with item "F" on the open face at `y = 0`. -/
def c9State : GridState :=
  (placeItem ⟨⟨3, 3, 1⟩, .front, fun _ => none, []⟩
    ⟨"F", ⟨2, 1, 1⟩⟩ ⟨1, 0, 0⟩ ⟨0, 1, 2⟩).2

/-- The catalogue entry of "F" in `c9State`. -/
def c9Item : PlacedItem := ⟨"F", ⟨1, 0, 0⟩, ⟨2, 1, 1⟩⟩

theorem findBlockingItems_frontFace_at_zero_witness :
    c9State.openFace = Face.front ∧
      lookupItem c9State "F" = some c9Item ∧
      c9Item.position.y = 0 ∧
      corridorCells c9State.dims c9State.openFace c9Item.position
        c9Item.effectiveDimensions = [] ∧
      findBlockingItems c9State "F" = .ok [] := by
  have h := findBlockingItems_frontFace_at_zero c9State "F" c9Item rfl
    (by rfl) rfl
  exact ⟨rfl, by rfl, rfl, h.1, h.2.2⟩

/-- The save/restore invariant of the fragmentation loop: either no snapshot
was taken and the working grid still equals the original, or the snapshot
holds the original grid cell-for-cell. -/
def FragSaved (g0 : Grid) (v : FragView) : Prop :=
  (v.tempState = none ∧ ∀ c : Position, v.grid c = g0 c) ∨
    (∃ gs : Grid, v.tempState = some gs ∧ ∀ c : Position, gs c = g0 c)

theorem temporarilyOccupySpace_saved {g0 : Grid} {v : FragView}
    (h : FragSaved g0 v) (position : Position) (dimensions : Dimensions) :
    FragSaved g0 (temporarilyOccupySpace v position dimensions) := by
  rcases h with ⟨hnone, hg⟩ | ⟨gs, hsome, hg⟩
  · right
    refine ⟨v.grid, ?_, hg⟩
    simp [temporarilyOccupySpace, hnone]
  · right
    refine ⟨gs, ?_, hg⟩
    simp [temporarilyOccupySpace, hsome]

theorem fragLoop_saved (f : FragView → Option EmptySpace) (freeVolume : Nat)
    (g0 : Grid) :
    ∀ (fuel : Nat) (v : FragView) (totalEmptyVolume : Nat)
      (spaces : List (EmptySpace × Nat)) (largestSpace : Option EmptySpace),
      FragSaved g0 v →
      FragSaved g0
        (fragLoop f freeVolume fuel v totalEmptyVolume spaces
          largestSpace).1 := by
  intro fuel
  induction fuel with
  | zero =>
    intro v te spaces ls h
    exact h
  | succ n ih =>
    intro v te spaces ls h
    rw [fragLoop.eq_def]
    dsimp only
    cases ls with
    | none => exact h
    | some sp =>
      dsimp only
      by_cases hte : te < freeVolume
      · rw [if_pos hte]
        have hv2 := temporarilyOccupySpace_saved h sp.position sp.dimensions
        split
        · exact hv2
        · exact ih _ _ _ _ hv2
      · rw [if_neg hte]
        exact h

theorem restoreTemporaryState_saved {g0 : Grid} {v : FragView}
    (h : FragSaved g0 v) :
    (restoreTemporaryState v).tempState = none ∧
      ∀ c : Position, (restoreTemporaryState v).grid c = g0 c := by
  rcases h with ⟨hnone, hg⟩ | ⟨gs, hsome, hg⟩
  · simp only [restoreTemporaryState, hnone]
    exact ⟨trivial, hg⟩
  · simp only [restoreTemporaryState, hsome]
    exact ⟨trivial, hg⟩

/-- C5: `analyzeSpaceFragmentation` is a pure query on the grid — for every
largest-empty-box search `f`, starting from a state with no pending snapshot,
the grid after the call equals the grid before, cell for cell, and the
snapshot slot is empty again, even though the loop paints scratch cells. -/
theorem analyzeSpaceFragmentation_pure (f : FragView → Option EmptySpace)
    (totalVolume usedVolume : Nat) (dims : Dimensions) (g : Grid) :
    ((analyzeSpaceFragmentation f totalVolume usedVolume
        ⟨dims, g, none⟩).2).tempState = none ∧
      ∀ c : Position,
        ((analyzeSpaceFragmentation f totalVolume usedVolume
          ⟨dims, g, none⟩).2).grid c = g c := by
  have hinv := fragLoop_saved f (totalVolume - usedVolume) g 12
    ⟨dims, g, none⟩ 0 [] (f ⟨dims, g, none⟩)
    (Or.inl ⟨rfl, fun _ => rfl⟩)
  exact restoreTemporaryState_saved hinv

/-- C6: for an item with usage budget 3 and no uses yet, the first two `use`
calls succeed leaving `isWaste` false, the third succeeds and transitions
`isWaste` to true, and the next call fails with the already-waste error while
the usage count stays at 3. -/
theorem usageLimit_three_lifecycle (it : Item) (hl : it.usageLimit = some 3)
    (hc : it.usageCount = 0) (hw : it.isWaste = false) :
    it.use = .ok (false, { it with usageCount := 1 }) ∧
      ({ it with usageCount := 1 } : Item).isWaste = false ∧
      ({ it with usageCount := 1 } : Item).use =
        .ok (false, { it with usageCount := 2 }) ∧
      ({ it with usageCount := 2 } : Item).isWaste = false ∧
      ({ it with usageCount := 2 } : Item).use =
        .ok (true, { it with usageCount := 3, isWaste := true }) ∧
      ({ it with usageCount := 3, isWaste := true } : Item).isWaste = true ∧
      ({ it with usageCount := 3, isWaste := true } : Item).use =
        .error "Cannot use an item that is already waste" ∧
      ({ it with usageCount := 3, isWaste := true } : Item).usageCount =
        3 := by
  refine ⟨?_, hw, ?_, hw, ?_, rfl, ?_, rfl⟩
  · simp [Item.use, hl, hc, hw]
  · simp [Item.use, hl, hw]
  · simp [Item.use, hl, hw]
  · simp [Item.use]

/-- A concrete item with usage budget 3 for the lifecycle law. -/
def c6Item : Item :=
  ⟨"I6", "canister", 1, 1, 1, 1, 50, none, some 3, "Crew", 0, false⟩

theorem usageLimit_three_lifecycle_witness :
    c6Item.usageLimit = some 3 ∧ c6Item.usageCount = 0 ∧
      c6Item.isWaste = false ∧
      ({ c6Item with usageCount := 2 } : Item).use =
        .ok (true, { c6Item with usageCount := 3, isWaste := true }) ∧
      ({ c6Item with usageCount := 3, isWaste := true } : Item).use =
        .error "Cannot use an item that is already waste" :=
  ⟨rfl, rfl, rfl,
    (usageLimit_three_lifecycle c6Item rfl rfl rfl).2.2.2.2.1,
    (usageLimit_three_lifecycle c6Item rfl rfl rfl).2.2.2.2.2.2.1⟩

/-- C10: `checkIfWaste` is not a pure predicate — on an item that is not yet
waste but has expired (or whose usage budget is reached) it reports true and
permanently sets `isWaste`, after which every `use` call fails. -/
theorem checkIfWaste_side_effect (it : Item) (currentDate : Int)
    (hw : it.isWaste = false)
    (hcond : it.hasExpired currentDate = true ∨
      ∃ lim, it.usageLimit = some lim ∧ lim ≤ it.usageCount) :
    (it.checkIfWaste currentDate).1 = true ∧
      ((it.checkIfWaste currentDate).2).isWaste = true ∧
      ((it.checkIfWaste currentDate).2).use =
        .error "Cannot use an item that is already waste" := by
  have hstep : it.checkIfWaste currentDate =
      (true, { it with isWaste := true }) := by
    rw [Item.checkIfWaste, if_neg (by rw [hw]; exact Bool.false_ne_true)]
    rcases hcond with he | ⟨lim, hliml, hle⟩
    · rw [if_pos he]
    · by_cases he2 : it.hasExpired currentDate = true
      · rw [if_pos he2]
      · rw [if_neg he2, hliml]
        dsimp only
        rw [if_pos hle]
  rw [hstep]
  exact ⟨rfl, rfl, by simp [Item.use]⟩

/-- A concrete item that expired on day 5, checked on day 10. -/
def c10Item : Item :=
  ⟨"I10", "ration", 1, 1, 1, 1, 50, some 5, none, "Galley", 0, false⟩

theorem checkIfWaste_side_effect_witness :
    c10Item.isWaste = false ∧ c10Item.hasExpired 10 = true ∧
      (c10Item.checkIfWaste 10).1 = true ∧
      ((c10Item.checkIfWaste 10).2).isWaste = true ∧
      ((c10Item.checkIfWaste 10).2).use =
        .error "Cannot use an item that is already waste" := by
  have h := checkIfWaste_side_effect c10Item 10 rfl (Or.inl (by decide))
  exact ⟨rfl, by decide, h.1, h.2.1, h.2.2⟩

/-- C7 counterexample: integer priority 80 is at least 67, so the claim
demands the high-tier multiplier 1.5, but the ranker's strict string
comparison gives it the neutral multiplier 1.0. -/
theorem recommendPriorityMultiplier_num80 :
    recommendPriorityMultiplier (.num 80) none = 1 ∧
      recommendPriorityMultiplier (.num 80) none ≠ 1.5 := by
  constructor
  · rfl
  · rw [show recommendPriorityMultiplier (.num 80) none = 1 from rfl]
    norm_num

/-- C7 as amended: the ranker maps no integer priority onto a tier — for
every integer priority in 1..100 the base multiplier is exactly 1.0 (the
comparisons match only the literal strings "high" and "low"), and 0.5 is
added exactly when the item expires within 30 days. -/
theorem recommendPriorityMultiplier_num (n : Nat) (h1 : 1 ≤ n)
    (h2 : n ≤ 100) :
    recommendPriorityMultiplier (.num n) none = 1 ∧
      (∀ days : ℚ, days < 30 →
        recommendPriorityMultiplier (.num n) (some days) = 1 + 0.5) ∧
      (∀ days : ℚ, ¬days < 30 →
        recommendPriorityMultiplier (.num n) (some days) = 1) := by
  refine ⟨rfl, ?_, ?_⟩
  · intro days hd
    rw [recommendPriorityMultiplier]
    rw [if_pos hd]
  · intro days hd
    rw [recommendPriorityMultiplier]
    rw [if_neg hd]

theorem recommendPriorityMultiplier_num_witness :
    (1 ≤ 80 ∧ 80 ≤ 100) ∧
      recommendPriorityMultiplier (.num 80) (some 10) = 1 + 0.5 ∧
      recommendPriorityMultiplier (.num 80) (some 45) = 1 :=
  ⟨⟨by norm_num, by norm_num⟩,
    (recommendPriorityMultiplier_num 80 (by norm_num) (by norm_num)).2.1 10
      (by norm_num),
    (recommendPriorityMultiplier_num 80 (by norm_num) (by norm_num)).2.2 45
      (by norm_num)⟩

/-- C8: applying the six orientations to a positive dimension triple yields
exactly the six permutations of `(width, depth, height)`: the mapped list is
the six index permutations, each result is a permutation of the original
triple, and every permutation of the original triple appears in the list. -/
theorem getAllOrientations_perms (d : Dimensions) (hw : 0 < d.width)
    (hd : 0 < d.depth) (hh : 0 < d.height) :
    (Orientation.getAllOrientations.map
        (fun o => o.getEffectiveDimensions d)) =
      [⟨d.width, d.depth, d.height⟩, ⟨d.width, d.height, d.depth⟩,
        ⟨d.depth, d.width, d.height⟩, ⟨d.depth, d.height, d.width⟩,
        ⟨d.height, d.width, d.depth⟩, ⟨d.height, d.depth, d.width⟩] ∧
      (∀ e ∈ Orientation.getAllOrientations.map
          (fun o => o.getEffectiveDimensions d),
        [e.width, e.depth, e.height].Perm [d.width, d.depth, d.height]) ∧
      (∀ l : List Nat, l.Perm [d.width, d.depth, d.height] →
        ∃ e ∈ Orientation.getAllOrientations.map
            (fun o => o.getEffectiveDimensions d),
          [e.width, e.depth, e.height] = l) := by
  have heq : (Orientation.getAllOrientations.map
      (fun o => o.getEffectiveDimensions d)) =
      [⟨d.width, d.depth, d.height⟩, ⟨d.width, d.height, d.depth⟩,
        ⟨d.depth, d.width, d.height⟩, ⟨d.depth, d.height, d.width⟩,
        ⟨d.height, d.width, d.depth⟩, ⟨d.height, d.depth, d.width⟩] := rfl
  refine ⟨heq, ?_, ?_⟩
  · intro e he
    rw [heq] at he
    simp only [List.mem_cons, List.not_mem_nil, or_false] at he
    rcases he with rfl | rfl | rfl | rfl | rfl | rfl
    · exact List.Perm.refl _
    · exact List.Perm.cons d.width (List.Perm.swap d.depth d.height [])
    · exact List.Perm.swap d.width d.depth [d.height]
    · exact (List.Perm.cons d.depth
        (List.Perm.swap d.width d.height [])).trans
        (List.Perm.swap d.width d.depth [d.height])
    · exact (List.Perm.swap d.width d.height [d.depth]).trans
        (List.Perm.cons d.width (List.Perm.swap d.depth d.height []))
    · exact (List.Perm.cons d.height
        (List.Perm.swap d.width d.depth [])).trans
        ((List.Perm.swap d.width d.height [d.depth]).trans
          (List.Perm.cons d.width (List.Perm.swap d.depth d.height [])))
  · intro l hl
    rw [heq]
    have hlen : l.length = 3 := hl.length_eq
    rcases l with _ | ⟨a, _ | ⟨b, _ | ⟨c, _ | ⟨a4, l⟩⟩⟩⟩ <;> simp at hlen
    have ha : a ∈ [d.width, d.depth, d.height] :=
      hl.mem_iff.mp (List.mem_cons_self a [b, c])
    simp only [List.mem_cons, List.not_mem_nil, or_false] at ha
    rcases ha with rfl | rfl | rfl
    · have htail : [b, c].Perm [d.depth, d.height] := hl.cons_inv
      have hb : b ∈ [d.depth, d.height] :=
        htail.mem_iff.mp (List.mem_cons_self b [c])
      simp only [List.mem_cons, List.not_mem_nil, or_false] at hb
      rcases hb with rfl | rfl
      · have hcc : [c] = [d.height] :=
          List.perm_singleton.mp htail.cons_inv
        simp only [List.cons.injEq, and_true] at hcc
        subst hcc
        exact ⟨⟨d.width, d.depth, d.height⟩, by simp, rfl⟩
      · have hcc : [c] = [d.depth] := List.perm_singleton.mp
          ((htail.trans (List.Perm.swap d.height d.depth [])).cons_inv)
        simp only [List.cons.injEq, and_true] at hcc
        subst hcc
        exact ⟨⟨d.width, d.height, d.depth⟩, by simp, rfl⟩
    · have htail : [b, c].Perm [d.width, d.height] :=
        (hl.trans (List.Perm.swap d.depth d.width [d.height])).cons_inv
      have hb : b ∈ [d.width, d.height] :=
        htail.mem_iff.mp (List.mem_cons_self b [c])
      simp only [List.mem_cons, List.not_mem_nil, or_false] at hb
      rcases hb with rfl | rfl
      · have hcc : [c] = [d.height] :=
          List.perm_singleton.mp htail.cons_inv
        simp only [List.cons.injEq, and_true] at hcc
        subst hcc
        exact ⟨⟨d.depth, d.width, d.height⟩, by simp, rfl⟩
      · have hcc : [c] = [d.width] := List.perm_singleton.mp
          ((htail.trans (List.Perm.swap d.height d.width [])).cons_inv)
        simp only [List.cons.injEq, and_true] at hcc
        subst hcc
        exact ⟨⟨d.depth, d.height, d.width⟩, by simp, rfl⟩
    · have htail : [b, c].Perm [d.width, d.depth] :=
        ((hl.trans (List.Perm.cons d.width
          (List.Perm.swap d.height d.depth []))).trans
          (List.Perm.swap d.height d.width [d.depth])).cons_inv
      have hb : b ∈ [d.width, d.depth] :=
        htail.mem_iff.mp (List.mem_cons_self b [c])
      simp only [List.mem_cons, List.not_mem_nil, or_false] at hb
      rcases hb with rfl | rfl
      · have hcc : [c] = [d.depth] :=
          List.perm_singleton.mp htail.cons_inv
        simp only [List.cons.injEq, and_true] at hcc
        subst hcc
        exact ⟨⟨d.height, d.width, d.depth⟩, by simp, rfl⟩
      · have hcc : [c] = [d.width] := List.perm_singleton.mp
          ((htail.trans (List.Perm.swap d.depth d.width [])).cons_inv)
        simp only [List.cons.injEq, and_true] at hcc
        subst hcc
        exact ⟨⟨d.height, d.depth, d.width⟩, by simp, rfl⟩

theorem getAllOrientations_perms_witness :
    ((0:Nat) < 1 ∧ (0:Nat) < 2 ∧ (0:Nat) < 3) ∧
      (Orientation.getAllOrientations.map
          (fun o => o.getEffectiveDimensions ⟨1, 2, 3⟩)) =
        [⟨1, 2, 3⟩, ⟨1, 3, 2⟩, ⟨2, 1, 3⟩, ⟨2, 3, 1⟩, ⟨3, 1, 2⟩,
          ⟨3, 2, 1⟩] :=
  ⟨⟨by decide, by decide, by decide⟩,
    (getAllOrientations_perms ⟨1, 2, 3⟩ (by decide) (by decide)
      (by decide)).1⟩

end Cargo
